import Mathlib

/-!
Shallow embedding of the SENSEI Libsim analysis adaptor
(`src/sensei/LibsimAnalysisAdaptor.cxx`), covering:

* the mesh data cache (`MeshInfo`, `AddMeshDataCacheEntry`, `GetTotalDomains`,
  `GetLocalDomain`, `GetDataSet`, `FetchMesh`);
* the variable-name resolver (`GetArrayInfoFromVariableName`);
* the unstructured-grid cell-type remapping (`celltype_vtk_to_libsim` and the
  connectivity rebuilding loop of `vtkDataSet_to_VisIt_Mesh`);
* the AMR domain-nesting reconstruction (`GetDomainNesting`): the sentinel
  extent table with its element-wise maximum all-reduction, the topological
  dimension test, the work-list partition across ranks, the `box_intersect`
  child test, the gathered `{parent, nChildren, children...}` triples and the
  final per-patch nesting result.

C `int` values are modelled as `Int`, `unsigned int` casts as `% 2^32`,
pointers that may be null as `Option`, and MPI collectives as explicit
functions over the per-rank contributions.
-/

namespace SenseiLibsim

/-! ## AMR patch extents and the sentinel-table maximum reduction -/

/-- The 6-entry extent of one AMR patch as stored in the flat `allext` table:
`lowi, highi, lowj, highj, lowk, highk` (entries `ext[0]`..`ext[5]`). -/
structure Ext6 where
  e0 : Int
  e1 : Int
  e2 : Int
  e3 : Int
  e4 : Int
  e5 : Int
deriving DecidableEq, Repr

/-- The sentinel value the extent table is initialized to (lines 2348-2349:
every entry set to `-1`). -/
def sentinelExt : Ext6 := ⟨-1, -1, -1, -1, -1, -1⟩

/-- Element-wise maximum of two 6-entry extents (what `MPI_MAX` computes on
the corresponding cells of the flat table). -/
def maxExt (a b : Ext6) : Ext6 :=
  ⟨max a.e0 b.e0, max a.e1 b.e1, max a.e2 b.e2,
   max a.e3 b.e3, max a.e4 b.e4, max a.e5 b.e5⟩

/-- All six entries of an extent are non-negative (a "real" extent). -/
def extNonneg (e : Ext6) : Prop :=
  0 ≤ e.e0 ∧ 0 ≤ e.e1 ∧ 0 ≤ e.e2 ∧ 0 ≤ e.e3 ∧ 0 ≤ e.e4 ∧ 0 ≤ e.e5

instance (e : Ext6) : Decidable (extNonneg e) := by
  unfold extNonneg; infer_instance

/-- One rank's extent table before the reduction (lines 2346-2359): slot `i`
holds the patch's real extent when the rank owns patch `i` (its `vtkAMRBox`
is non-empty there), and the sentinel otherwise. -/
def rankExtentTable (owned : Nat → Bool) (trueExt : Nat → Ext6) (i : Nat) : Ext6 :=
  if owned i then trueExt i else sentinelExt

/-- The `MPI_Allreduce(..., MPI_MAX, ...)` call over one table cell: the element-wise
maximum of all ranks' contributions (line 2360). -/
def allreduceMaxExt : List Ext6 → Ext6
  | [] => sentinelExt
  | c :: cs => cs.foldl maxExt c

/-- The reduced extent table every rank holds after line 2360, as a function
of patch index. -/
def reducedExtentTable (ranks : List Nat) (owned : Nat → Nat → Bool)
    (trueExt : Nat → Ext6) (i : Nat) : Ext6 :=
  allreduceMaxExt (ranks.map fun r => rankExtentTable (owned r) trueExt i)

lemma maxExt_self (x : Ext6) : maxExt x x = x := by
  cases x; simp [maxExt]

lemma maxExt_sentinel_right (x : Ext6) (h : extNonneg x) : maxExt x sentinelExt = x := by
  obtain ⟨h0, h1, h2, h3, h4, h5⟩ := h
  cases x
  simp_all [maxExt, sentinelExt]
  omega

lemma maxExt_sentinel_left (x : Ext6) (h : extNonneg x) : maxExt sentinelExt x = x := by
  obtain ⟨h0, h1, h2, h3, h4, h5⟩ := h
  cases x
  simp_all [maxExt, sentinelExt]
  omega

lemma sentinelExt_ne (x : Ext6) (h : extNonneg x) : x ≠ sentinelExt := by
  intro hx
  rw [hx] at h
  exact absurd h.1 (by decide)

/-- Folding `maxExt` over contributions that are all either `x` or the
sentinel, starting from `x`, stays at `x`. -/
lemma foldl_maxExt_stay (x : Ext6) (hx : extNonneg x) :
    ∀ l : List Ext6, (∀ c ∈ l, c = x ∨ c = sentinelExt) → l.foldl maxExt x = x := by
  intro l
  induction l with
  | nil => intro _; rfl
  | cons c cs ih =>
    intro h
    have hc := h c (List.mem_cons_self c cs)
    have hcs : ∀ d ∈ cs, d = x ∨ d = sentinelExt := fun d hd => h d (List.mem_cons_of_mem c hd)
    rcases hc with hc | hc
    · rw [List.foldl_cons, hc, maxExt_self]
      exact ih hcs
    · rw [List.foldl_cons, hc, maxExt_sentinel_right x hx]
      exact ih hcs

/-- Folding `maxExt` from the sentinel over contributions that are all either
`x` or the sentinel recovers `x` as soon as `x` occurs. -/
lemma foldl_maxExt_recover (x : Ext6) (hx : extNonneg x) :
    ∀ l : List Ext6, (∀ c ∈ l, c = x ∨ c = sentinelExt) → x ∈ l →
      l.foldl maxExt sentinelExt = x := by
  intro l
  induction l with
  | nil => intro _ hmem; cases hmem
  | cons c cs ih =>
    intro h hmem
    have hcs : ∀ d ∈ cs, d = x ∨ d = sentinelExt := fun d hd => h d (List.mem_cons_of_mem c hd)
    rcases h c (List.mem_cons_self c cs) with hc | hc
    · rw [List.foldl_cons, hc, maxExt_sentinel_left x hx]
      exact foldl_maxExt_stay x hx cs hcs
    · rw [List.foldl_cons, hc, maxExt_self]
      have hxcs : x ∈ cs := by
        rcases List.mem_cons.mp hmem with h1 | h1
        · exact absurd (h1.trans hc) (sentinelExt_ne x hx)
        · exact h1
      exact ih hcs hxcs

/-- Folding `maxExt` over all-sentinel contributions stays at the sentinel. -/
lemma foldl_maxExt_sentinel :
    ∀ l : List Ext6, (∀ c ∈ l, c = sentinelExt) → l.foldl maxExt sentinelExt = sentinelExt := by
  intro l
  induction l with
  | nil => intro _; rfl
  | cons c cs ih =>
    intro h
    rw [List.foldl_cons, h c (List.mem_cons_self c cs), maxExt_self]
    exact ih fun d hd => h d (List.mem_cons_of_mem c hd)

/-- If some rank owns patch `i` and its true extent is real (non-negative
everywhere), the reduction recovers that extent. -/
lemma reducedExtentTable_owned (ranks : List Nat) (owned : Nat → Nat → Bool)
    (trueExt : Nat → Ext6) (i : Nat) (hreal : extNonneg (trueExt i))
    (hown : ∃ r ∈ ranks, owned r i) :
    reducedExtentTable ranks owned trueExt i = trueExt i := by
  unfold reducedExtentTable allreduceMaxExt
  obtain ⟨r0, hr0, hr0own⟩ := hown
  have hshape : ∀ c ∈ ranks.map fun r => rankExtentTable (owned r) trueExt i,
      c = trueExt i ∨ c = sentinelExt := by
    intro c hc
    obtain ⟨r, _, hr⟩ := List.mem_map.mp hc
    unfold rankExtentTable at hr
    by_cases h : owned r i
    · left; rw [← hr, if_pos h]
    · right; rw [← hr, if_neg h]
  have hmem : trueExt i ∈ ranks.map fun r => rankExtentTable (owned r) trueExt i := by
    refine List.mem_map.mpr ⟨r0, hr0, ?_⟩
    unfold rankExtentTable
    rw [if_pos hr0own]
  cases hml : ranks.map fun r => rankExtentTable (owned r) trueExt i with
  | nil => rw [hml] at hmem; cases hmem
  | cons c cs =>
    rw [hml] at hshape hmem
    have hcs : ∀ d ∈ cs, d = trueExt i ∨ d = sentinelExt :=
      fun d hd => hshape d (List.mem_cons_of_mem c hd)
    rcases hshape c (List.mem_cons_self c cs) with hc | hc
    · rw [hc]
      exact foldl_maxExt_stay _ hreal cs hcs
    · rw [hc]
      have : trueExt i ∈ cs := by
        rcases List.mem_cons.mp hmem with h1 | h1
        · exact absurd (h1.trans hc) (sentinelExt_ne _ hreal)
        · exact h1
      exact foldl_maxExt_recover _ hreal cs hcs this

/-- If no rank owns patch `i`, all six of its table cells stay at the
sentinel after the reduction. -/
lemma reducedExtentTable_unowned (ranks : List Nat) (owned : Nat → Nat → Bool)
    (trueExt : Nat → Ext6) (i : Nat) (hun : ∀ r ∈ ranks, ¬ owned r i) :
    reducedExtentTable ranks owned trueExt i = sentinelExt := by
  unfold reducedExtentTable allreduceMaxExt
  have hshape : ∀ c ∈ ranks.map fun r => rankExtentTable (owned r) trueExt i,
      c = sentinelExt := by
    intro c hc
    obtain ⟨r, hr, hrc⟩ := List.mem_map.mp hc
    unfold rankExtentTable at hrc
    rw [← hrc, if_neg (by simpa using hun r hr)]
  cases hml : ranks.map fun r => rankExtentTable (owned r) trueExt i with
  | nil => rfl
  | cons c cs =>
    rw [hml] at hshape
    rw [hshape c (List.mem_cons_self c cs)]
    exact foldl_maxExt_sentinel cs fun d hd => hshape d (List.mem_cons_of_mem c hd)

/-! ## The domain-nesting pipeline of `GetDomainNesting` (lines 2253-2567)

The AMR container is abstracted by `counts`, the number of datasets at each
level (`GetNumberOfDataSets`), with composite (flat) patch indices assigned
level-major as VTK does, and `ratio level` = `GetRefinementRatio(level)`. -/

/-- Embedding of `GetCompositeIndex(level, i)`: patches are numbered level-major. -/
def compositeIndex (counts : List Nat) (level i : Nat) : Nat :=
  (counts.take level).sum + i

/-- Embedding of `GetLevelAndIndex(dom)`: recover `(level, patchIndexWithinLevel)` from a
composite index. -/
def levelAndIndex : List Nat → Nat → Nat × Nat
  | [], dom => (0, dom)
  | c :: cs, dom =>
      if dom < c then (0, dom)
      else
        let p := levelAndIndex cs (dom - c)
        (p.1 + 1, p.2)

/-- Line 2382: the topological dimension is decided by `allext[5] - allext[4]`,
the z-extent of the patch with composite index 0. -/
def topologicalDim (allext : Nat → Ext6) : Nat :=
  if 1 < (allext 0).e5 - (allext 0).e4 then 3 else 2

/-- Modelled from the spec's words ("whether the z-extent spans more than one
cell anywhere"), for comparison with `topologicalDim`: 3 when ANY of the `n`
patches has a z-extent difference above 1. -/
def specTopologicalDim (n : Nat) (allext : Nat → Ext6) : Nat :=
  if (List.range n).any (fun i => decide (1 < (allext i).e5 - (allext i).e4)) then 3 else 2

/-- Lines 2253-2257. -/
def in_range (value v0 v1 : Int) : Bool :=
  v0 ≤ value && value ≤ v1

/-- Lines 2259-2283: does the child extent overlap the parent extent scaled
by the refinement ratio?  Z is ignored when the scaled parent's z-range is
`[0, 0]`. -/
def box_intersect (ext extChild : Ext6) (ratio : Int) : Bool :=
  let p0 := ext.e0 * ratio
  let p1 := ext.e1 * ratio
  let p2 := ext.e2 * ratio
  let p3 := ext.e3 * ratio
  let p4 := ext.e4 * ratio
  let p5 := ext.e5 * ratio
  let inX := in_range extChild.e0 p0 p1 || in_range extChild.e1 p0 p1
  let inY := in_range extChild.e2 p2 p3 || in_range extChild.e3 p2 p3
  let inZ :=
    if p4 ≠ p5 ∨ p4 ≠ 0 then
      in_range extChild.e4 p4 p5 || in_range extChild.e5 p4 p5
    else
      true
  inX && inY && inZ

/-- Lines 2405-2411: the global work list of every non-leaf-level patch's
composite index (all levels except the finest). -/
def workList (counts : List Nat) : List Nat :=
  (List.range (counts.length - 1)).flatMap fun level =>
    (List.range (counts.getD level 0)).map (compositeIndex counts level)

/-- Lines 2417-2420: `rankn[r]`, the number of work-list indices `i < ws`
with `i % size = r`. -/
def rankCount (ws size r : Nat) : Nat :=
  ((List.range ws).filter fun i => i % size == r).length

/-- Lines 2421-2423: the offset of rank `rank`'s block, the sum of the
preceding ranks' counts. -/
def rankOffset (ws size rank : Nat) : Nat :=
  ((List.range rank).map (rankCount ws size)).sum

/-- Lines 2424-2425: the contiguous block of the work list handled by `rank`. -/
def myWork (work : List Nat) (size rank : Nat) : List Nat :=
  (work.drop (rankOffset work.length size rank)).take (rankCount work.length size rank)

/-- Lines 2439-2460: the children of patch `dom` — the composite indices at
the next-finer level whose extent passes `box_intersect` against `dom`'s
extent scaled by `dom`'s level's refinement ratio. -/
def childrenOf (counts : List Nat) (allext : Nat → Ext6) (ratio : Nat → Int)
    (dom : Nat) : List Nat :=
  let level := (levelAndIndex counts dom).1
  let nextLevel := level + 1
  let r := ratio level
  (List.range (counts.getD nextLevel 0)).filterMap fun j =>
    let childDom := compositeIndex counts nextLevel j
    if box_intersect (allext dom) (allext childDom) r then some childDom else none

/-- Lines 2429-2467: one rank's `childData` buffer, the concatenation of
`{compositeIndex, nChildren, c0, c1, ...}` records over its work items. -/
def childDataFor (counts : List Nat) (allext : Nat → Ext6) (ratio : Nat → Int)
    (doms : List Nat) : List Int :=
  doms.flatMap fun dom =>
    let cs := childrenOf counts allext ratio dom
    (dom : Int) :: (cs.length : Int) :: cs.map Int.ofNat

/-- Lines 2469-2498: `MPI_Allgatherv` of the per-rank `childData` buffers —
every rank ends up with the ranks' buffers concatenated in rank order. -/
def workResults (counts : List Nat) (allext : Nat → Ext6) (ratio : Nat → Int)
    (work : List Nat) (size : Nat) : List Int :=
  (List.range size).flatMap fun r => childDataFor counts allext ratio (myWork work size r)

/-- Lines 2502-2536: the consuming `while` loop over the gathered buffer,
reading `{dom, nChildren, children...}` records.  The fuel argument bounds
the recursion by the buffer length; each step consumes at least two
entries, so `l.length` fuel is always enough. -/
def parseTriplesAux : Nat → List Int → List (Nat × List Nat)
  | 0, _ => []
  | _, [] => []
  | _, [_] => []
  | fuel + 1, dom :: n :: rest =>
      (dom.toNat, (rest.take n.toNat).map Int.toNat)
        :: parseTriplesAux fuel (rest.drop n.toNat)

/-- The `{parent, children}` pairs read off a gathered results buffer. -/
def parseTriples (l : List Int) : List (Nat × List Nat) :=
  parseTriplesAux l.length l

/-- Lines 2538-2556: the finest-level patches, each emitted with an
explicitly empty child list. -/
def leafEntries (counts : List Nat) : List (Nat × List Nat) :=
  (List.range (counts.getD (counts.length - 1) 0)).map fun i =>
    (compositeIndex counts (counts.length - 1) i, ([] : List Nat))

/-- The complete nesting result `GetDomainNesting` installs: the gathered
non-leaf records followed by the leaf records. -/
def nestingResult (counts : List Nat) (allext : Nat → Ext6) (ratio : Nat → Int)
    (size : Nat) : List (Nat × List Nat) :=
  parseTriples (workResults counts allext ratio (workList counts) size)
    ++ leafEntries counts

/-! ## The mesh data cache (`MeshInfo`, lines 122-179, and its operations) -/

/-- The `vtkDataObject` returned by the data adaptor, classified the way the
adaptor's `SafeDownCast`s classify it.  Composite objects carry the non-null
`vtkDataSet` leaves their iterator visits (with `SkipEmptyNodesOn`), each
leaf dataset being an opaque handle. -/
inductive VtkDataObject where
  | overlappingAMR (leaves : List Nat)
  | otherComposite (leaves : List Nat)
  | plainDataSet (ds : Nat)
  | otherObject
deriving DecidableEq, Repr

/-- Embedding of `struct MeshInfo` (lines 122-179).  Null pointers are `none`; the
`datasets` entries start as null placeholders. -/
structure MeshInfo where
  dataObj : Option VtkDataObject
  datasets : List (Option Nat)
  ndoms_per_rank : List Int
  doms_this_rank : List Nat
  datasetsHaveGhostCells : Bool
deriving DecidableEq, Repr

/-- Embedding of `meshData.find(meshName)` on the `std::map<std::string, MeshInfo*>`,
modelled on an association list with unique keys. -/
def findMesh : List (List Char × MeshInfo) → List Char → Option MeshInfo
  | [], _ => none
  | (k, v) :: rest, name => if k = name then some v else findMesh rest name

/-- Replacing the `MeshInfo` stored under an existing key. -/
def updateMesh : List (List Char × MeshInfo) → List Char → MeshInfo →
    List (List Char × MeshInfo)
  | [], _, _ => []
  | (k, v) :: rest, name, mi =>
      if k = name then (k, mi) :: rest else (k, v) :: updateMesh rest name mi

/-- Embedding of `MeshInfo::SetDataSet` (lines 161-172): writes only in-bounds indices. -/
def setDataSet (mi : MeshInfo) (idx : Nat) (ds : Option Nat) : MeshInfo :=
  if idx < mi.datasets.length then
    { mi with datasets := mi.datasets.set idx ds }
  else
    mi

/-- The unpacking loop of `FetchMesh` (lines 1103-1121): store each leaf at
`localId++`. -/
def setDataSets (mi : MeshInfo) (idx : Nat) : List Nat → MeshInfo
  | [] => mi
  | d :: ds => setDataSets (setDataSet mi idx (some d)) (idx + 1) ds

/-- Embedding of `FetchMesh` (lines 1082-1124): on success of the data adaptor's `GetMesh`
(`fetched = some obj`), store the object and unpack its leaf datasets; on
failure, log and leave the entry alone.  A `vtkOverlappingAMR` is a composite
dataset, so its leaves are unpacked too. -/
def fetchMesh (md : List (List Char × MeshInfo)) (fetched : Option VtkDataObject)
    (name : List Char) : List (List Char × MeshInfo) :=
  match findMesh md name with
  | none => md
  | some mi =>
      match fetched with
      | none => md
      | some obj =>
          let mi' := { mi with dataObj := some obj }
          let mi'' :=
            match obj with
            | .overlappingAMR leaves => setDataSets mi' 0 leaves
            | .otherComposite leaves => setDataSets mi' 0 leaves
            | .plainDataSet ds => setDataSet mi' 0 (some ds)
            | .otherObject => mi'
          updateMesh md name mi''

/-- Embedding of `AddMeshDataCacheEntry` (lines 929-987) as computed on `rank`:
`datasets` is sized like the local id list with null placeholders, the local
ids are saved, and `ndoms_per_rank` is the `MPI_Allgather` (line 967) of
every rank's local dataset count. -/
def addMeshDataCacheEntry (datasetIdsPerRank : List (List Nat)) (rank : Nat) : MeshInfo :=
  { dataObj := none
  , datasets := List.replicate (datasetIdsPerRank.getD rank []).length none
  , ndoms_per_rank := datasetIdsPerRank.map fun ids => (ids.length : Int)
  , doms_this_rank := datasetIdsPerRank.getD rank []
  , datasetsHaveGhostCells := false }

/-- Embedding of `GetTotalDomains` (lines 990-1003): 0 with no cache entry, else the sum
of the per-rank domain counts. -/
def getTotalDomains (md : List (List Char × MeshInfo)) (name : List Char) : Int :=
  match findMesh md name with
  | none => 0
  | some mi => mi.ndoms_per_rank.sum

/-- The linear search of `GetLocalDomain`'s loop (lines 1036-1043): index of
the first occurrence. -/
def findIdx : List Nat → Nat → Option Nat
  | [], _ => none
  | d :: ds, g => if g = d then some 0 else (findIdx ds g).map (· + 1)

/-- Embedding of `GetLocalDomain` (lines 1027-1047): `-1` with no cache entry or no match,
else the position of `globaldomain` (cast to `unsigned int`) in
`doms_this_rank`. -/
def getLocalDomain (md : List (List Char × MeshInfo)) (name : List Char)
    (globaldomain : Int) : Int :=
  match findMesh md name with
  | none => -1
  | some mi =>
      match findIdx mi.doms_this_rank ((globaldomain % (2 ^ 32 : Int)).toNat) with
      | none => -1
      | some i => (i : Int)

/-- Embedding of `GetDataSet` (lines 1067-1079): null with no cache entry or an
out-of-range local index, else the stored (possibly null) handle. -/
def getDataSet (md : List (List Char × MeshInfo)) (name : List Char)
    (localdomain : Int) : Option Nat :=
  match findMesh md name with
  | none => none
  | some mi =>
      if 0 ≤ localdomain ∧ localdomain < (mi.datasets.length : Int) then
        mi.datasets.getD localdomain.toNat none
      else
        none

/-! ## The entry phase of `GetDomainNesting` (lines 2292-2337) -/

/-- How `GetDomainNesting` leaves its entry phase.  Only `proceeds` goes on
to the collective phase (the `MPI_Allreduce` / `MPI_Allgatherv` calls at
lines 2360, 2473 and 2497 all come after the `vtkOverlappingAMR` downcast
succeeds); every other outcome returns `VISIT_INVALID_HANDLE` ("no nesting
available") before any collective call. -/
inductive NestingOutcome where
  | invalidNoEntry
  | invalidGhost
  | invalidNotAMR
  | proceeds (leaves : List Nat)
deriving DecidableEq, Repr

/-- Lines 2299-2330 of `GetDomainNesting`: locate the cache entry, skip when
ghost cells are already present, fetch the mesh if it was never cached
(`fetched` is what the data adaptor would return), then require a
`vtkOverlappingAMR`.  Returns the cache state as left by the entry phase
together with the outcome. -/
def getDomainNestingEntry (md : List (List Char × MeshInfo))
    (fetched : Option VtkDataObject) (name : List Char) :
    List (List Char × MeshInfo) × NestingOutcome :=
  match findMesh md name with
  | none => (md, .invalidNoEntry)
  | some mi =>
      if mi.datasetsHaveGhostCells then
        (md, .invalidGhost)
      else
        let md' := if mi.dataObj = none then fetchMesh md fetched name else md
        match findMesh md' name with
        | none => (md', .invalidNotAMR)
        | some mi' =>
            match mi'.dataObj with
            | some (.overlappingAMR leaves) => (md', .proceeds leaves)
            | _ => (md', .invalidNotAMR)

/-! ## The variable-name resolver (`GetArrayInfoFromVariableName`,
lines 1155-1213).  Strings are modelled as `List Char`; the three by-reference
output parameters are modelled as a record threaded through the call, so that
"the function did not write an output" is visible as the field keeping its
incoming value. -/

/-- The constant `vtkDataObject::FIELD_ASSOCIATION_POINTS`. -/
abbrev FIELD_ASSOCIATION_POINTS : Int := 0

/-- The constant `vtkDataObject::FIELD_ASSOCIATION_CELLS`. -/
abbrev FIELD_ASSOCIATION_CELLS : Int := 1

/-- The caller's three output variables (`meshName`, `var`, `association`). -/
structure ArrayInfo where
  meshName : List Char
  var : List Char
  association : Int
deriving DecidableEq, Repr

/-- Embedding of `varName.find("/")` followed by the two `substr` calls: `none` when no
separator occurs, else the parts before and after the first `/`. -/
def splitAtSlash : List Char → Option (List Char × List Char)
  | [] => none
  | c :: cs =>
      if c = '/' then some ([], cs)
      else (splitAtSlash cs).map fun p => (c :: p.1, p.2)

/-- Lines 1199-1212: probe the point-array names first, then the cell-array
names; leave the association untouched when the name occurs in neither. -/
def findAssociationFor (pointvars cellvars : List (List Char)) (st : ArrayInfo) :
    ArrayInfo :=
  if st.var ∈ pointvars then
    { st with association := FIELD_ASSOCIATION_POINTS }
  else if st.var ∈ cellvars then
    { st with association := FIELD_ASSOCIATION_CELLS }
  else
    st

/-- Embedding of `GetArrayInfoFromVariableName` (lines 1155-1213).  `meshNames` is what
the data adaptor's `GetMeshNames` returns and `arrayNames meshName assoc`
what its `GetArrayNames` returns.  `st` holds the caller's (possibly
uninitialized) output variables on entry; the result holds them on exit. -/
def getArrayInfoFromVariableName (meshNames : List (List Char))
    (arrayNames : List Char → Int → List (List Char))
    (varName : List Char) (st : ArrayInfo) : ArrayInfo :=
  if 1 < meshNames.length then
    match splitAtSlash varName with
    | none => st
    | some (mesh, tmpVar) =>
        if tmpVar.take 5 = "cell_".toList then
          { st with meshName := mesh, var := tmpVar.drop 5,
                    association := FIELD_ASSOCIATION_CELLS }
        else
          findAssociationFor (arrayNames mesh FIELD_ASSOCIATION_POINTS)
            (arrayNames mesh FIELD_ASSOCIATION_CELLS)
            { st with meshName := mesh, var := tmpVar }
  else
    let mesh := meshNames.headD []
    if varName.take 5 = "cell_".toList then
      { st with meshName := mesh, var := varName.drop 5,
                association := FIELD_ASSOCIATION_CELLS }
    else
      findAssociationFor (arrayNames mesh FIELD_ASSOCIATION_POINTS)
        (arrayNames mesh FIELD_ASSOCIATION_CELLS)
        { st with meshName := mesh, var := varName }

/-! ## Cell-type remapping (`celltype_vtk_to_libsim`, lines 1286-1325) and
the unstructured connectivity rebuild (lines 1566-1605).

The VTK cell-type codes are the values of `vtkCellType.h`; the
`VISIT_CELL_*` codes are the values of VisIt's `VisItInterfaceTypes_V2.h`.
Only their non-negativity matters below: `-1` is the table's "unsupported"
marker. -/

abbrev VTK_VERTEX : Nat := 1
abbrev VTK_LINE : Nat := 3
abbrev VTK_TRIANGLE : Nat := 5
abbrev VTK_QUAD : Nat := 9
abbrev VTK_TETRA : Nat := 10
abbrev VTK_HEXAHEDRON : Nat := 12
abbrev VTK_WEDGE : Nat := 13
abbrev VTK_PYRAMID : Nat := 14
abbrev VTK_QUADRATIC_EDGE : Nat := 21
abbrev VTK_QUADRATIC_TRIANGLE : Nat := 22
abbrev VTK_QUADRATIC_QUAD : Nat := 23
abbrev VTK_QUADRATIC_TETRA : Nat := 24
abbrev VTK_QUADRATIC_HEXAHEDRON : Nat := 25
abbrev VTK_QUADRATIC_WEDGE : Nat := 26
abbrev VTK_QUADRATIC_PYRAMID : Nat := 27
abbrev VTK_BIQUADRATIC_QUAD : Nat := 28
abbrev VTK_TRIQUADRATIC_HEXAHEDRON : Nat := 29
abbrev VTK_QUADRATIC_LINEAR_QUAD : Nat := 30
abbrev VTK_QUADRATIC_LINEAR_WEDGE : Nat := 31
abbrev VTK_BIQUADRATIC_QUADRATIC_WEDGE : Nat := 32
abbrev VTK_BIQUADRATIC_QUADRATIC_HEXAHEDRON : Nat := 33
abbrev VTK_BIQUADRATIC_TRIANGLE : Nat := 34
abbrev VTK_NUMBER_OF_CELL_TYPES : Nat := 82

abbrev VISIT_CELL_BEAM : Int := 0
abbrev VISIT_CELL_TRI : Int := 1
abbrev VISIT_CELL_QUAD : Int := 2
abbrev VISIT_CELL_TET : Int := 3
abbrev VISIT_CELL_PYR : Int := 4
abbrev VISIT_CELL_WEDGE : Int := 5
abbrev VISIT_CELL_HEX : Int := 6
abbrev VISIT_CELL_POINT : Int := 7
abbrev VISIT_CELL_QUADRATIC_EDGE : Int := 20
abbrev VISIT_CELL_QUADRATIC_TRI : Int := 21
abbrev VISIT_CELL_QUADRATIC_QUAD : Int := 22
abbrev VISIT_CELL_QUADRATIC_TET : Int := 23
abbrev VISIT_CELL_QUADRATIC_PYR : Int := 24
abbrev VISIT_CELL_QUADRATIC_WEDGE : Int := 25
abbrev VISIT_CELL_QUADRATIC_HEX : Int := 26
abbrev VISIT_CELL_BIQUADRATIC_TRI : Int := 27
abbrev VISIT_CELL_BIQUADRATIC_QUAD : Int := 28
abbrev VISIT_CELL_TRIQUADRATIC_HEX : Int := 29
abbrev VISIT_CELL_QUADRATIC_LINEAR_QUAD : Int := 30
abbrev VISIT_CELL_QUADRATIC_LINEAR_WEDGE : Int := 31
abbrev VISIT_CELL_BIQUADRATIC_QUADRATIC_WEDGE : Int := 32
abbrev VISIT_CELL_BIQUADRATIC_QUADRATIC_HEX : Int := 33

/-- Embedding of `celltype_vtk_to_libsim` (lines 1288-1325): the fixed lookup table,
initialized to `-1` everywhere and then populated for the supported VTK
cell types. -/
def celltype_vtk_to_libsim (t : Nat) : Int :=
  if t = VTK_LINE then VISIT_CELL_BEAM
  else if t = VTK_TRIANGLE then VISIT_CELL_TRI
  else if t = VTK_QUAD then VISIT_CELL_QUAD
  else if t = VTK_TETRA then VISIT_CELL_TET
  else if t = VTK_PYRAMID then VISIT_CELL_PYR
  else if t = VTK_WEDGE then VISIT_CELL_WEDGE
  else if t = VTK_HEXAHEDRON then VISIT_CELL_HEX
  else if t = VTK_VERTEX then VISIT_CELL_POINT
  else if t = VTK_QUADRATIC_EDGE then VISIT_CELL_QUADRATIC_EDGE
  else if t = VTK_QUADRATIC_TRIANGLE then VISIT_CELL_QUADRATIC_TRI
  else if t = VTK_QUADRATIC_QUAD then VISIT_CELL_QUADRATIC_QUAD
  else if t = VTK_QUADRATIC_TETRA then VISIT_CELL_QUADRATIC_TET
  else if t = VTK_QUADRATIC_PYRAMID then VISIT_CELL_QUADRATIC_PYR
  else if t = VTK_QUADRATIC_WEDGE then VISIT_CELL_QUADRATIC_WEDGE
  else if t = VTK_QUADRATIC_HEXAHEDRON then VISIT_CELL_QUADRATIC_HEX
  else if t = VTK_BIQUADRATIC_TRIANGLE then VISIT_CELL_BIQUADRATIC_TRI
  else if t = VTK_BIQUADRATIC_QUAD then VISIT_CELL_BIQUADRATIC_QUAD
  else if t = VTK_TRIQUADRATIC_HEXAHEDRON then VISIT_CELL_TRIQUADRATIC_HEX
  else if t = VTK_QUADRATIC_LINEAR_QUAD then VISIT_CELL_QUADRATIC_LINEAR_QUAD
  else if t = VTK_QUADRATIC_LINEAR_WEDGE then VISIT_CELL_QUADRATIC_LINEAR_WEDGE
  else if t = VTK_BIQUADRATIC_QUADRATIC_WEDGE then VISIT_CELL_BIQUADRATIC_QUADRATIC_WEDGE
  else if t = VTK_BIQUADRATIC_QUADRATIC_HEXAHEDRON then VISIT_CELL_BIQUADRATIC_QUADRATIC_HEX
  else -1

/-- One native unstructured cell: its VTK type code (an `unsigned char`) and
its point ids (the entries after the leading count in the VTK connectivity
stream, so `conn.length` is the cell's point count). -/
structure UCell where
  ctype : Nat
  conn : List Nat
deriving DecidableEq, Repr

/-- The body of the conversion loop (lines 1575-1598): a supported cell
becomes `{libsimType, pointIndices...}`; an unsupported cell becomes a
single-point `VISIT_CELL_POINT` cell referencing the cell's first point
(`cellConn[1]`). -/
def convertCell (c : UCell) : List Int :=
  if celltype_vtk_to_libsim c.ctype ≠ -1 then
    celltype_vtk_to_libsim c.ctype :: c.conn.map Int.ofNat
  else
    [VISIT_CELL_POINT, Int.ofNat (c.conn.headD 0)]

/-- The whole rebuilt Libsim connectivity stream. -/
def convertConnectivity (cells : List UCell) : List Int :=
  cells.flatMap convertCell

/-- The point count of a cell after conversion: the native count for a
supported type, 1 for the degraded single-point cell. -/
def convertedPointCount (c : UCell) : Nat :=
  if celltype_vtk_to_libsim c.ctype ≠ -1 then c.conn.length else 1

/-! ## Supporting lemmas for the claims -/

lemma findIdx_mem {l : List Nat} {g : Nat} (h : g ∈ l) :
    ∃ i, findIdx l g = some i ∧ i < l.length := by
  induction l with
  | nil => cases h
  | cons d ds ih =>
    by_cases hg : g = d
    · exact ⟨0, by simp [findIdx, hg], by simp⟩
    · rcases List.mem_cons.mp h with h1 | h1
      · exact absurd h1 hg
      · obtain ⟨i, hi, hlen⟩ := ih h1
        refine ⟨i + 1, by simp [findIdx, hg, hi], ?_⟩
        simpa using Nat.succ_lt_succ hlen

lemma celltype_defined_or_unsupported (t : Nat) (ht : t < VTK_NUMBER_OF_CELL_TYPES) :
    celltype_vtk_to_libsim t = -1 ∨ 0 ≤ celltype_vtk_to_libsim t := by
  interval_cases t <;> decide

lemma convertCell_length (c : UCell) :
    (convertCell c).length = 1 + convertedPointCount c := by
  unfold convertCell convertedPointCount
  by_cases h : celltype_vtk_to_libsim c.ctype ≠ -1
  · rw [if_pos h, if_pos h, List.length_cons, List.length_map]
    omega
  · rw [if_neg h, if_neg h]
    rfl

lemma convertConnectivity_length (cells : List UCell) :
    (convertConnectivity cells).length
      = (cells.map fun c => 1 + convertedPointCount c).sum := by
  induction cells with
  | nil => rfl
  | cons c cs ih =>
    simp only [convertConnectivity, List.flatMap_cons, List.length_append,
      List.map_cons, List.sum_cons] at ih ⊢
    rw [convertCell_length c, ih]

/-! ## The claims -/

/-- C1: after each rank initializes its 6-entries-per-patch extent table to
the sentinel `-1` and writes only its locally-owned patches' extents, the
element-wise maximum reduction across all ranks gives every rank the true
extent of every patch whose real (all-non-negative) extent some rank
contributed, while the cells of patches no rank contributed stay `-1`. -/
theorem extent_table_max_reduction (ranks : List Nat) (owned : Nat → Nat → Bool)
    (trueExt : Nat → Ext6) (i : Nat) :
    ((∃ r ∈ ranks, owned r i) → extNonneg (trueExt i) →
      reducedExtentTable ranks owned trueExt i = trueExt i)
  ∧ ((∀ r ∈ ranks, ¬ owned r i) →
      reducedExtentTable ranks owned trueExt i = sentinelExt) :=
  ⟨fun hown hreal => reducedExtentTable_owned ranks owned trueExt i hreal hown,
   fun hun => reducedExtentTable_unowned ranks owned trueExt i hun⟩

theorem extent_table_max_reduction_witness :
    reducedExtentTable [0, 1] (fun r i => r == 0 && i == 0)
      (fun _ => ⟨0, 3, 0, 3, 0, 0⟩) 0 = ⟨0, 3, 0, 3, 0, 0⟩
  ∧ reducedExtentTable [0, 1] (fun r i => r == 0 && i == 0)
      (fun _ => ⟨0, 3, 0, 3, 0, 0⟩) 1 = sentinelExt :=
  ⟨(extent_table_max_reduction [0, 1] (fun r i => r == 0 && i == 0)
      (fun _ => ⟨0, 3, 0, 3, 0, 0⟩) 0).1 ⟨0, by decide, by decide⟩ (by decide),
   (extent_table_max_reduction [0, 1] (fun r i => r == 0 && i == 0)
      (fun _ => ⟨0, 3, 0, 3, 0, 0⟩) 1).2 (by decide)⟩

/-- Rank ownership in the spec's 2-process scenario: rank 0 owns patch 0
(level 0), rank 1 owns patches 1 and 2 (level 1). -/
def scenarioOwned (r i : Nat) : Bool :=
  (r == 0 && i == 0) || (r == 1 && (i == 1 || i == 2))

/-- The true patch extents of the 2-process scenario. -/
def scenarioTrueExt (i : Nat) : Ext6 :=
  if i = 0 then ⟨0, 3, 0, 3, 0, 0⟩
  else if i = 1 then ⟨0, 1, 0, 1, 0, 0⟩
  else if i = 2 then ⟨2, 3, 2, 3, 0, 0⟩
  else sentinelExt

/-- The reduced extent table both of the scenario's ranks hold. -/
def scenarioAllext : Nat → Ext6 :=
  reducedExtentTable [0, 1] scenarioOwned scenarioTrueExt

/-- C2: in the 2-process scenario (rank 0 owns patch 0 at level 0 with
extent `[0,3,0,3,0,0]`; rank 1 owns patches 1 and 2 at level 1 with extents
`[0,1,0,1,0,0]` and `[2,3,2,3,0,0]`; refinement ratio 2), the nesting
reconstruction computes patch 0's children as exactly `{1, 2}`, empty child
sets for patches 1 and 2, and topological dimension 2. -/
theorem two_rank_scenario_nesting :
    nestingResult [1, 2] scenarioAllext (fun _ => 2) 2
      = [(0, [1, 2]), (1, []), (2, [])]
  ∧ topologicalDim scenarioAllext = 2 := by decide

/-- C3: after a cache population (which all-gathers each rank's local domain
count into `ndoms_per_rank`), the sum over all ranks of `ndoms_per_rank`
equals `GetTotalDomains(meshName)` (both equal the total of the per-rank
local counts), and the `datasets` sequence has exactly as many entries as
`doms_this_rank`. -/
theorem cache_population_invariant (idsPerRank : List (List Nat)) (rank : Nat)
    (md : List (List Char × MeshInfo)) (name : List Char)
    (h : findMesh md name = some (addMeshDataCacheEntry idsPerRank rank)) :
    ((addMeshDataCacheEntry idsPerRank rank).ndoms_per_rank).sum
      = getTotalDomains md name
  ∧ getTotalDomains md name = (idsPerRank.map fun ids => (ids.length : Int)).sum
  ∧ (addMeshDataCacheEntry idsPerRank rank).datasets.length
      = (addMeshDataCacheEntry idsPerRank rank).doms_this_rank.length := by
  unfold getTotalDomains
  rw [h]
  exact ⟨rfl, rfl, by simp [addMeshDataCacheEntry]⟩

theorem cache_population_invariant_witness :
    ((addMeshDataCacheEntry [[0], [1, 2]] 1).ndoms_per_rank).sum
      = getTotalDomains [("mesh".toList, addMeshDataCacheEntry [[0], [1, 2]] 1)] "mesh".toList
  ∧ getTotalDomains [("mesh".toList, addMeshDataCacheEntry [[0], [1, 2]] 1)] "mesh".toList
      = ([[0], [1, 2]].map fun ids => ((ids.length : Nat) : Int)).sum
  ∧ (addMeshDataCacheEntry [[0], [1, 2]] 1).datasets.length
      = (addMeshDataCacheEntry [[0], [1, 2]] 1).doms_this_rank.length :=
  cache_population_invariant [[0], [1, 2]] 1
    [("mesh".toList, addMeshDataCacheEntry [[0], [1, 2]] 1)] "mesh".toList (by decide)

/-- C4: every global domain id in a rank's local id list is found by
`GetLocalDomain`, which returns a non-negative index strictly below the
length of the cache entry's `datasets` sequence. -/
theorem global_to_local_roundtrip (idsPerRank : List (List Nat)) (rank : Nat)
    (md : List (List Char × MeshInfo)) (name : List Char)
    (h : findMesh md name = some (addMeshDataCacheEntry idsPerRank rank))
    (gid : Nat) (hmem : gid ∈ (addMeshDataCacheEntry idsPerRank rank).doms_this_rank)
    (hrange : gid < 2 ^ 32) :
    0 ≤ getLocalDomain md name (gid : Int)
  ∧ (getLocalDomain md name (gid : Int)).toNat
      < (addMeshDataCacheEntry idsPerRank rank).datasets.length := by
  have hcast : (((gid : Int)) % (2 ^ 32 : Int)).toNat = gid := by omega
  obtain ⟨i, hi, hlen⟩ := findIdx_mem hmem
  have hval : getLocalDomain md name (gid : Int) = (i : Int) := by
    simp only [getLocalDomain, h, hcast, hi]
  constructor
  · rw [hval]; exact Int.ofNat_nonneg i
  · rw [hval]
    have : ((i : Int)).toNat = i := rfl
    rw [this]
    simpa [addMeshDataCacheEntry] using hlen

theorem global_to_local_roundtrip_witness :
    0 ≤ getLocalDomain [("mesh".toList, addMeshDataCacheEntry [[5], [7, 9]] 1)]
        "mesh".toList ((9 : Nat) : Int)
  ∧ (getLocalDomain [("mesh".toList, addMeshDataCacheEntry [[5], [7, 9]] 1)]
        "mesh".toList ((9 : Nat) : Int)).toNat
      < (addMeshDataCacheEntry [[5], [7, 9]] 1).datasets.length :=
  global_to_local_roundtrip [[5], [7, 9]] 1
    [("mesh".toList, addMeshDataCacheEntry [[5], [7, 9]] 1)] "mesh".toList
    (by decide) 9 (by decide) (by norm_num)

/-- C5: the cell-type mapping is total — every native cell becomes either a
table-mapped cell (the table value is a defined, non-negative external code)
followed by all its points, or a degraded single-point `VISIT_CELL_POINT`
cell referencing the cell's first point — and the rebuilt connectivity
stream's length is the sum of `1 + pointCount` over the converted cells.
Native codes are `unsigned char` indices into the 82-entry table. -/
theorem celltype_mapping_total (cells : List UCell)
    (htypes : ∀ c ∈ cells, c.ctype < VTK_NUMBER_OF_CELL_TYPES)
    (hpts : ∀ c ∈ cells, c.conn ≠ []) :
    (∀ c ∈ cells,
        (0 ≤ celltype_vtk_to_libsim c.ctype ∧
          convertCell c = celltype_vtk_to_libsim c.ctype :: c.conn.map Int.ofNat)
      ∨ (celltype_vtk_to_libsim c.ctype = -1 ∧
          ∃ p, c.conn.head? = some p ∧ convertCell c = [VISIT_CELL_POINT, Int.ofNat p]))
  ∧ (convertConnectivity cells).length
      = (cells.map fun c => 1 + convertedPointCount c).sum := by
  constructor
  · intro c hc
    rcases celltype_defined_or_unsupported c.ctype (htypes c hc) with hneg | hpos
    · right
      refine ⟨hneg, ?_⟩
      cases hconn : c.conn with
      | nil => exact absurd hconn (hpts c hc)
      | cons p ps =>
          refine ⟨p, rfl, ?_⟩
          unfold convertCell
          rw [if_neg (fun hne => hne hneg), hconn]
          rfl
    · left
      have hne : celltype_vtk_to_libsim c.ctype ≠ -1 := by omega
      refine ⟨hpos, ?_⟩
      unfold convertCell
      rw [if_pos hne]
  · exact convertConnectivity_length cells

theorem celltype_mapping_total_witness :
    (convertConnectivity [⟨VTK_TRIANGLE, [0, 1, 2]⟩, ⟨2, [3, 4]⟩]).length
      = ([⟨VTK_TRIANGLE, [0, 1, 2]⟩, (⟨2, [3, 4]⟩ : UCell)].map
          fun c => 1 + convertedPointCount c).sum :=
  (celltype_mapping_total [⟨VTK_TRIANGLE, [0, 1, 2]⟩, ⟨2, [3, 4]⟩]
    (by decide) (by decide)).2

/-! ## Lemmas on the work-list partition -/

lemma rankCount_succ (w size r : Nat) :
    rankCount (w + 1) size r = rankCount w size r + (if w % size = r then 1 else 0) := by
  unfold rankCount
  rw [List.range_succ, List.filter_append]
  by_cases h : w % size = r
  · simp [h]
  · simp [h]

lemma sum_if_eq_range (k m : Nat) (hm : m < k) :
    ((List.range k).map fun r => if m = r then 1 else 0).sum = 1 := by
  induction k with
  | zero => omega
  | succ k ih =>
      rw [List.range_succ, List.map_append, List.sum_append]
      by_cases h : m = k
      · have hz : ((List.range k).map fun r => if m = r then 1 else 0).sum = 0 := by
          apply List.sum_eq_zero
          intro x hx
          obtain ⟨r, hr, hxe⟩ := List.mem_map.mp hx
          have hr' := List.mem_range.mp hr
          rw [← hxe, if_neg (by omega)]
        rw [hz, h]
        simp
      · have hmk : m < k := by omega
        rw [ih hmk]
        simp [h]

lemma map_sum_add {α : Type} (l : List α) (f g : α → Nat) :
    (l.map fun x => f x + g x).sum = (l.map f).sum + (l.map g).sum := by
  induction l with
  | nil => rfl
  | cons a as ih =>
      simp only [List.map_cons, List.sum_cons, ih]
      omega

lemma sum_rankCount (ws size : Nat) (hs : 0 < size) :
    ((List.range size).map (rankCount ws size)).sum = ws := by
  induction ws with
  | zero =>
      have h0 : ∀ r ∈ List.range size, rankCount 0 size r = 0 := fun r _ => rfl
      rw [List.map_congr_left h0]
      simp
  | succ w ih =>
      have hpt : ∀ r ∈ List.range size,
          rankCount (w + 1) size r
            = rankCount w size r + (if w % size = r then 1 else 0) :=
        fun r _ => rankCount_succ w size r
      rw [List.map_congr_left hpt, map_sum_add, ih,
        sum_if_eq_range size (w % size) (Nat.mod_lt w hs)]

lemma flatMap_take_drop_blocks {α : Type} (l : List α) (c : Nat → Nat) (k : Nat) :
    ((List.range k).flatMap fun r =>
        (l.drop (((List.range r).map c).sum)).take (c r))
      = l.take (((List.range k).map c).sum) := by
  induction k with
  | zero => rfl
  | succ k ih =>
      rw [List.range_succ, List.flatMap_append, ih, List.map_append, List.sum_append]
      simp only [List.flatMap_cons, List.flatMap_nil, List.append_nil,
        List.map_cons, List.sum_cons, List.map_nil, List.sum_nil, Nat.add_zero]
      rw [List.take_add]

/-! ## Lemmas on the resolver and the nesting entry phase -/

lemma splitAtSlash_of_not_mem {l : List Char} (h : '/' ∉ l) :
    splitAtSlash l = none := by
  induction l with
  | nil => rfl
  | cons c cs ih =>
      have hc : ¬ (c = '/') := by
        intro he
        apply h
        rw [he]
        exact List.mem_cons_self _ _
      unfold splitAtSlash
      rw [if_neg hc, ih fun hx => h (List.mem_cons_of_mem c hx)]
      rfl

lemma findMesh_updateMesh (md : List (List Char × MeshInfo)) (name : List Char)
    (x : MeshInfo) (h : (findMesh md name).isSome) :
    findMesh (updateMesh md name x) name = some x := by
  induction md with
  | nil => simp [findMesh] at h
  | cons kv rest ih =>
      obtain ⟨k, v⟩ := kv
      by_cases hk : k = name
      · simp only [updateMesh, findMesh, if_pos hk]
      · simp only [updateMesh, findMesh, if_neg hk] at h ⊢
        exact ih h

lemma setDataSet_dataObj (mi : MeshInfo) (idx : Nat) (ds : Option Nat) :
    (setDataSet mi idx ds).dataObj = mi.dataObj := by
  unfold setDataSet
  split <;> rfl

lemma setDataSets_dataObj (mi : MeshInfo) (idx : Nat) (l : List Nat) :
    (setDataSets mi idx l).dataObj = mi.dataObj := by
  induction l generalizing mi idx with
  | nil => rfl
  | cons d ds ih =>
      unfold setDataSets
      rw [ih, setDataSet_dataObj]

lemma fetchMesh_found (md : List (List Char × MeshInfo)) (obj : VtkDataObject)
    (name : List Char) (mi : MeshInfo) (h : findMesh md name = some mi) :
    ∃ mi', findMesh (fetchMesh md (some obj) name) name = some mi'
      ∧ mi'.dataObj = some obj := by
  have hsome : (findMesh md name).isSome := by rw [h]; rfl
  cases obj with
  | overlappingAMR leaves =>
      refine ⟨setDataSets { mi with dataObj := some (.overlappingAMR leaves) } 0 leaves,
        ?_, ?_⟩
      · unfold fetchMesh
        rw [h]
        exact findMesh_updateMesh md name _ hsome
      · rw [setDataSets_dataObj]
  | otherComposite leaves =>
      refine ⟨setDataSets { mi with dataObj := some (.otherComposite leaves) } 0 leaves,
        ?_, ?_⟩
      · unfold fetchMesh
        rw [h]
        exact findMesh_updateMesh md name _ hsome
      · rw [setDataSets_dataObj]
  | plainDataSet ds =>
      refine ⟨setDataSet { mi with dataObj := some (.plainDataSet ds) } 0 (some ds),
        ?_, ?_⟩
      · unfold fetchMesh
        rw [h]
        exact findMesh_updateMesh md name _ hsome
      · rw [setDataSet_dataObj]
  | otherObject =>
      refine ⟨{ mi with dataObj := some .otherObject }, ?_, ?_⟩
      · unfold fetchMesh
        rw [h]
        exact findMesh_updateMesh md name _ hsome
      · rfl

/-! ## The claims, continued -/

/-- The table used against claim C6: patch 0 is flat in z while patch 1
spans five cells in z. -/
def zVaryTable (i : Nat) : Ext6 :=
  if i = 0 then ⟨0, 3, 0, 3, 0, 0⟩ else ⟨0, 3, 0, 3, 0, 4⟩

/-- C6 counterexample: the code's topological dimension disagrees with "3 if
any patch's z-extent spans more than one cell": with patch 0 flat in z and
patch 1 spanning z `[0, 4]`, the spec's reading gives 3 but the code
(which looks only at entries 4 and 5 of the flat table, i.e. patch 0's
z-extent) gives 2. -/
theorem topdim_counterexample :
    specTopologicalDim 2 zVaryTable = 3 ∧ topologicalDim zVaryTable = 2 := by decide

/-- C6 amended: the topological dimension is determined solely by the first
patch's (composite index 0's) z-extent — through the reduction it equals 3
exactly when patch 0's z-extent difference exceeds 1, and any two tables
agreeing on patch 0 give the same answer. -/
theorem topdim_from_first_patch (ranks : List Nat) (owned : Nat → Nat → Bool)
    (trueExt : Nat → Ext6) (h0 : ∃ r ∈ ranks, owned r 0)
    (hnn : extNonneg (trueExt 0)) :
    topologicalDim (reducedExtentTable ranks owned trueExt)
      = (if 1 < (trueExt 0).e5 - (trueExt 0).e4 then 3 else 2)
  ∧ (∀ f g : Nat → Ext6, f 0 = g 0 → topologicalDim f = topologicalDim g) := by
  constructor
  · unfold topologicalDim
    rw [reducedExtentTable_owned ranks owned trueExt 0 hnn h0]
  · intro f g hfg
    unfold topologicalDim
    rw [hfg]

theorem topdim_from_first_patch_witness :
    topologicalDim (reducedExtentTable [0, 1] (fun r i => r == 0 && i == 0)
        fun _ => ⟨0, 0, 0, 0, 0, 4⟩)
      = (if 1 < ((⟨0, 0, 0, 0, 0, 4⟩ : Ext6).e5 - (⟨0, 0, 0, 0, 0, 4⟩ : Ext6).e4)
          then 3 else 2) :=
  (topdim_from_first_patch [0, 1] (fun r i => r == 0 && i == 0)
      (fun _ => ⟨0, 0, 0, 0, 0, 4⟩) ⟨0, by decide, by decide⟩ (by decide)).1

/-- C7 counterexample: with 4 work items and 2 ranks the item at index 1 is
handled by rank 0 (it sits in rank 0's contiguous block), not by rank
`1 mod 2 = 1` as the claim's round-robin assignment would have it. -/
theorem work_partition_counterexample :
    myWork [10, 11, 12, 13] 2 0 = [10, 11]
  ∧ myWork [10, 11, 12, 13] 2 1 = [12, 13]
  ∧ [10, 11, 12, 13].getD 1 0 = 11
  ∧ 11 ∉ myWork [10, 11, 12, 13] 2 (1 % 2) := by decide

/-- C7 amended: the work list is split into consecutive contiguous blocks —
rank `r` receives the block of length `|{i < ws : i mod size = r}|` (the
round-robin counts) starting at the sum of the preceding ranks' counts — so
concatenating the ranks' assignments in rank order reproduces the work list
exactly: every work item is assigned to exactly one rank, deterministically
in the work list and the process count. -/
theorem work_partition_blocks (work : List Nat) (size : Nat) (hs : 0 < size) :
    ((List.range size).flatMap fun r => myWork work size r) = work := by
  unfold myWork rankOffset
  rw [flatMap_take_drop_blocks work (rankCount work.length size) size,
    sum_rankCount work.length size hs]
  exact List.take_length work

theorem work_partition_blocks_witness :
    ((List.range 2).flatMap fun r => myWork [10, 11, 12, 13] 2 r)
      = [10, 11, 12, 13] :=
  work_partition_blocks [10, 11, 12, 13] 2 (by decide)

/-- C8 counterexample: with two meshes and a separator-free external name,
the resolver writes none of its three output parameters — two calls that
differ only in the caller's incoming (in the source: uninitialized) output
values produce different results, so no defined failure outcome is
assigned. -/
theorem resolver_counterexample :
    getArrayInfoFromVariableName ["a".toList, "b".toList] (fun _ _ => [])
        "temperature".toList ⟨[], [], 0⟩
      ≠ getArrayInfoFromVariableName ["a".toList, "b".toList] (fun _ _ => [])
        "temperature".toList ⟨[], [], 5⟩ := by decide

/-- C8 amended: when multiple meshes exist and the external name lacks the
`/` separator, the resolver returns with the mesh name, array name and
association outputs exactly as the caller passed them in (it assigns
nothing, leaving them undetermined); the failure surfaces only because the
caller's defaulted mesh name finds no cache entry, yielding a null/invalid
result with no crash. -/
theorem resolver_missing_separator (meshNames : List (List Char))
    (arrayNames : List Char → Int → List (List Char))
    (varName : List Char) (st : ArrayInfo)
    (hm : 1 < meshNames.length) (hs : '/' ∉ varName) :
    getArrayInfoFromVariableName meshNames arrayNames varName st = st := by
  unfold getArrayInfoFromVariableName
  rw [if_pos hm, splitAtSlash_of_not_mem hs]

theorem resolver_missing_separator_witness :
    getArrayInfoFromVariableName ["a".toList, "b".toList] (fun _ _ => [])
        "temperature".toList ⟨[], [], 7⟩ = ⟨[], [], 7⟩ :=
  resolver_missing_separator ["a".toList, "b".toList] (fun _ _ => [])
    "temperature".toList ⟨[], [], 7⟩ (by decide) (by decide)

/-- C9 counterexample: nesting requested on a cached-but-unfetched mesh
whose data turns out not to be AMR — the entry phase does return "no
nesting available", but only after `FetchMesh` stored the fetched object in
the cache, so the cached state is changed, contradicting "leaving all
cached state unchanged". -/
theorem nesting_entry_counterexample :
    (getDomainNestingEntry [("m".toList, ⟨none, [none], [1], [0], false⟩)]
        (some (.plainDataSet 5)) "m".toList).2 = .invalidNotAMR
  ∧ (getDomainNestingEntry [("m".toList, ⟨none, [none], [1], [0], false⟩)]
        (some (.plainDataSet 5)) "m".toList).1
      ≠ [("m".toList, ⟨none, [none], [1], [0], false⟩)] := by decide

/-- C9 amended: the nesting entry phase returns "no nesting available"
before any collective call whenever the cached ghost-cell flag is true
(cached state untouched) or the dataset is not an AMR container; in the
non-AMR case the cached state is unchanged when the mesh data was already
cached, and is exactly the state left by the mesh fetch when it was not. -/
theorem nesting_entry_skip (md : List (List Char × MeshInfo))
    (fetched : Option VtkDataObject) (name : List Char) (mi : MeshInfo)
    (h : findMesh md name = some mi) :
    (mi.datasetsHaveGhostCells = true →
      getDomainNestingEntry md fetched name = (md, .invalidGhost))
  ∧ (mi.datasetsHaveGhostCells = false → mi.dataObj ≠ none →
      (∀ l, mi.dataObj ≠ some (.overlappingAMR l)) →
      getDomainNestingEntry md fetched name = (md, .invalidNotAMR))
  ∧ (mi.datasetsHaveGhostCells = false → mi.dataObj = none →
      (∀ l, fetched ≠ some (.overlappingAMR l)) →
      (getDomainNestingEntry md fetched name).1 = fetchMesh md fetched name
      ∧ (getDomainNestingEntry md fetched name).2 = .invalidNotAMR) := by
  refine ⟨fun hg => ?_, fun hg hne hnamr => ?_, fun hg hnone hfet => ?_⟩
  · simp [getDomainNestingEntry, h, hg]
  · cases hobj : mi.dataObj with
    | none => exact absurd hobj hne
    | some obj =>
        cases obj with
        | overlappingAMR l => exact absurd hobj (hnamr l)
        | otherComposite l => simp [getDomainNestingEntry, h, hg, hobj]
        | plainDataSet d => simp [getDomainNestingEntry, h, hg, hobj]
        | otherObject => simp [getDomainNestingEntry, h, hg, hobj]
  · cases hfet0 : fetched with
    | none =>
        have hfm : fetchMesh md none name = md := by
          unfold fetchMesh
          rw [h]
        constructor
        · simp [getDomainNestingEntry, h, hg, hnone, hfm]
        · simp [getDomainNestingEntry, h, hg, hnone, hfm]
    | some obj =>
        cases obj with
        | overlappingAMR l => exact absurd rfl (hfet0 ▸ hfet l)
        | otherComposite l =>
            obtain ⟨mi', hfind, hobj⟩ := fetchMesh_found md (.otherComposite l) name mi h
            constructor
            · simp [getDomainNestingEntry, h, hg, hnone, hfind, hobj]
            · simp [getDomainNestingEntry, h, hg, hnone, hfind, hobj]
        | plainDataSet d =>
            obtain ⟨mi', hfind, hobj⟩ := fetchMesh_found md (.plainDataSet d) name mi h
            constructor
            · simp [getDomainNestingEntry, h, hg, hnone, hfind, hobj]
            · simp [getDomainNestingEntry, h, hg, hnone, hfind, hobj]
        | otherObject =>
            obtain ⟨mi', hfind, hobj⟩ := fetchMesh_found md .otherObject name mi h
            constructor
            · simp [getDomainNestingEntry, h, hg, hnone, hfind, hobj]
            · simp [getDomainNestingEntry, h, hg, hnone, hfind, hobj]

theorem nesting_entry_skip_witness :
    getDomainNestingEntry [("m".toList, ⟨none, [none], [1], [0], true⟩)]
        none "m".toList
      = ([("m".toList, (⟨none, [none], [1], [0], true⟩ : MeshInfo))], .invalidGhost) :=
  (nesting_entry_skip [("m".toList, ⟨none, [none], [1], [0], true⟩)] none "m".toList
    ⟨none, [none], [1], [0], true⟩ (by decide)).1 rfl

/-- C10: `GetDataSet` is total — it returns null whenever the mesh name has
no cache entry or the local index is outside `[0, datasets.size)`, and the
stored (possibly null) dataset handle otherwise. -/
theorem get_dataset_total_lookup (md : List (List Char × MeshInfo))
    (name : List Char) (localdomain : Int) :
    (findMesh md name = none → getDataSet md name localdomain = none)
  ∧ (∀ mi, findMesh md name = some mi →
      (localdomain < 0 ∨ (mi.datasets.length : Int) ≤ localdomain) →
      getDataSet md name localdomain = none)
  ∧ (∀ mi, findMesh md name = some mi →
      0 ≤ localdomain → localdomain < (mi.datasets.length : Int) →
      getDataSet md name localdomain = mi.datasets.getD localdomain.toNat none) := by
  refine ⟨fun h => ?_, fun mi h hout => ?_, fun mi h h0 hlt => ?_⟩
  · simp [getDataSet, h]
  · have hcond : ¬ (0 ≤ localdomain ∧ localdomain < (mi.datasets.length : Int)) := by
      omega
    simp [getDataSet, h, hcond]
  · simp [getDataSet, h, h0, hlt]

theorem get_dataset_total_lookup_witness :
    getDataSet [("m".toList, ⟨none, [some 7, none], [2], [4, 9], false⟩)]
        "m".toList 0 = some 7
  ∧ getDataSet [("m".toList, ⟨none, [some 7, none], [2], [4, 9], false⟩)]
        "m".toList 5 = none :=
  ⟨((get_dataset_total_lookup
      [("m".toList, ⟨none, [some 7, none], [2], [4, 9], false⟩)] "m".toList 0).2.2
      ⟨none, [some 7, none], [2], [4, 9], false⟩ (by decide) (by decide)
      (by decide)).trans (by decide),
   (get_dataset_total_lookup
      [("m".toList, ⟨none, [some 7, none], [2], [4, 9], false⟩)] "m".toList 5).2.1
      ⟨none, [some 7, none], [2], [4, 9], false⟩ (by decide) (by decide)⟩

end SenseiLibsim
